import Mathlib

/-!
Shallow embedding of the conversation core of the chatbot-commercial
repository: the `ConversationService` context store, extraction utilities and
follow-up scheduler, and the `AIService` inbound-message pipeline together
with its admin activation operations.

Conventions of the embedding:
* Wall-clock instants are integers (milliseconds since epoch), matching
  `Date.getTime()`; floating-point hour/day quotients in the source compare a
  difference against a constant, which is rendered as the equivalent exact
  integer comparison.
* The subscription-expiry computation uses JavaScript `setMonth`/`setFullYear`
  calendar arithmetic, rendered as a calendar date `CalDate` carrying a total
  month index plus an opaque remainder (day and time of day inside the month,
  which the source never branches on).
* Network results (the intent classifier and the free-text generator) enter
  the pure functions as explicit arguments: an `IntentResult` value, and an
  `Option String` that is `some content` when the model call succeeded and
  `none` when it threw.
* In the source every field mutation happens on the very object held by the
  store's `Map`; the embedding keeps the store in sync after each mutation
  block, and `updateContext` receives the update payload as an explicit
  `ContextUpdates` value (`contextToUpdates` renders passing a whole context
  object, as every engine call site does).
* The `language` field and the message-history log are omitted: no claim and
  no state/notification decision reads them.
-/

namespace Chatbot

/-! ## Data model (ConversationService.ts types) -/

inductive ConversationState where
  | new
  | awaiting_device
  | awaiting_mac
  | awaiting_content_pref
  | trial_pending
  | trial_active
  | trial_expired
  | awaiting_payment
  | payment_pending
  | active_subscriber
  | churned
  | needs_human
deriving DecidableEq, Repr

inductive DeviceType where
  | firestick
  | android_phone
  | smart_tv
  | android_box
  | tivimate
  | other
deriving DecidableEq, Repr

inductive ContentPreference where
  | english
  | europe
  | worldwide
deriving DecidableEq, Repr

inductive PlanType where
  | monthly
  | yearly
  | twoYears
  | threeYears
  | lifetime
deriving DecidableEq, Repr

inductive PaymentMethod where
  | revolut
  | paypal
  | card
deriving DecidableEq, Repr

inductive Sentiment where
  | positive
  | neutral
  | negative
  | frustrated
deriving DecidableEq, Repr

/-- Calendar instant used for the subscription-expiry computation: `months` is
`year * 12 + monthOfYear` and `rem` stands for the day and time of day inside
the month, which `setMonth`/`setFullYear` leave untouched. -/
structure CalDate where
  months : Int
  rem : Int
deriving DecidableEq, Repr

def CalDate.addMonths (d : CalDate) (n : Int) : CalDate :=
  { d with months := d.months + n }

def CalDate.addYears (d : CalDate) (n : Int) : CalDate :=
  d.addMonths (12 * n)

structure Credentials where
  username : String
  password : String
  url : String
  m3uUrl : Option String
deriving DecidableEq, Repr

structure CustomerContext where
  phone : String
  name : Option String := none
  state : ConversationState
  previousState : Option ConversationState := none
  device : Option DeviceType := none
  macAddress : Option String := none
  deviceKey : Option String := none
  contentPreference : Option ContentPreference := none
  wantsAdultContent : Option Bool := none
  trialStartedAt : Option Int := none
  trialExpiresAt : Option Int := none
  plan : Option PlanType := none
  subscribedAt : Option Int := none
  expiresAt : Option CalDate := none
  paymentMethod : Option PaymentMethod := none
  paymentPending : Option Bool := none
  credentials : Option Credentials := none
  lastMessageAt : Option Int := none
  followUpsSent : Nat
  lastFollowUpType : Option String := none
  needsHuman : Bool
  escalationReason : Option String := none
  sentiment : Option Sentiment := none
  createdAt : Int
  updatedAt : Int
deriving DecidableEq, Repr

/-! ## String helpers (JavaScript `toLowerCase` / `includes`) -/

/-- Char-list matcher: the pattern occurs at the head of the text. -/
def matchAt : List Char → List Char → Bool
  | [], _ => true
  | _ :: _, [] => false
  | a :: pat, b :: text => a = b && matchAt pat text

/-- Char-list matcher: the pattern occurs somewhere in the text. -/
def hasSub (pat : List Char) : List Char → Bool
  | [] => pat.isEmpty
  | c :: rest => matchAt pat (c :: rest) || hasSub pat rest

/-- Substring test, `haystack.includes(needle)` on ASCII text. -/
def strIncludes (haystack needle : String) : Bool :=
  hasSub needle.toList haystack.toList

/-- Per-character lowercasing, `text.toLowerCase()` on ASCII text. -/
def lowerStr (s : String) : String :=
  String.mk (s.toList.map Char.toLower)

/-! ## Extraction utilities (ConversationService.ts) -/

def hexDigits : List Char :=
  "0123456789abcdefABCDEF".toList

def isHexDigitChar (c : Char) : Bool :=
  hexDigits.contains c

def isMacSep (c : Char) : Bool :=
  c = ':' || c = '-'

/-- Match of the pattern `([0-9A-Fa-f]\x7b2\x7d[:-])\x7b5\x7d([0-9A-Fa-f]\x7b2\x7d)`
anchored at the head of the character list: two hex digits and a `:` or `-`
separator, five times, then two final hex digits (17 characters). -/
def macColonAt : List Char → Option (List Char)
  | a :: b :: s1 :: c :: d :: s2 :: e :: f :: s3 :: g :: h :: s4 :: i :: j :: s5 :: k :: l :: _ =>
    if ([a, b, c, d, e, f, g, h, i, j, k, l].all isHexDigitChar
        && [s1, s2, s3, s4, s5].all isMacSep) then
      some [a, b, s1, c, d, s2, e, f, s3, g, h, s4, i, j, s5, k, l]
    else
      none
  | _ => none

/-- Match of the pattern `([0-9A-Fa-f]\x7b12\x7d)` anchored at the head: twelve
consecutive hex digits. -/
def macBareAt : List Char → Option (List Char)
  | a :: b :: c :: d :: e :: f :: g :: h :: i :: j :: k :: l :: _ =>
    if [a, b, c, d, e, f, g, h, i, j, k, l].all isHexDigitChar then
      some [a, b, c, d, e, f, g, h, i, j, k, l]
    else
      none
  | _ => none

/-- Leftmost match: try the anchored matcher at each position left to right,
which is the semantics of an unanchored JavaScript `String.match`. -/
def scanLeftmost (pat : List Char → Option (List Char)) : List Char → Option (List Char)
  | [] => none
  | c :: rest =>
    match pat (c :: rest) with
    | some m => some m
    | none => scanLeftmost pat rest

/-- Embedding of `extractMacAddress`: first the colon/dash-separated pattern,
then the bare 12-hex-digit pattern, returning the uppercased match. -/
def extractMacAddress (message : String) : Option String :=
  let cs := message.toList
  match scanLeftmost macColonAt cs with
  | some m => some (String.mk (m.map Char.toUpper))
  | none =>
    match scanLeftmost macBareAt cs with
    | some m => some (String.mk (m.map Char.toUpper))
    | none => none

/-- Embedding of `extractDeviceType`: case-insensitive keyword lookup, first
matching group wins. -/
def extractDeviceType (message : String) : Option DeviceType :=
  let lower := lowerStr message
  if strIncludes lower "fire" || strIncludes lower "firestick" || strIncludes lower "amazon" then
    some .firestick
  else if strIncludes lower "android phone" || strIncludes lower "phone"
      || strIncludes lower "mobile" || strIncludes lower "tablet" then
    some .android_phone
  else if strIncludes lower "smart tv" || strIncludes lower "samsung" || strIncludes lower "lg"
      || strIncludes lower "sony" || strIncludes lower "philips" then
    some .smart_tv
  else if strIncludes lower "android box" || strIncludes lower "box" || strIncludes lower "xiaomi" then
    some .android_box
  else if strIncludes lower "tivimate" || strIncludes lower "tivi mate" then
    some .tivimate
  else
    none

/-- Embedding of `extractContentPreference`. -/
def extractContentPreference (message : String) : Option ContentPreference :=
  let lower := lowerStr message
  if strIncludes lower "english" || strIncludes lower "uk" || strIncludes lower "irish"
      || strIncludes lower "ireland" then
    some .english
  else if strIncludes lower "europe" || strIncludes lower "european" then
    some .europe
  else if strIncludes lower "worldwide" || strIncludes lower "world"
      || strIncludes lower "everything" || strIncludes lower "all" then
    some .worldwide
  else
    none

def paymentKeywords : List String :=
  ["paid", "sent", "payment", "transferred", "receipt", "done", "money sent", "just paid"]

/-- Embedding of `isPaymentConfirmation`. -/
def isPaymentConfirmation (message : String) : Bool :=
  let lower := lowerStr message
  paymentKeywords.any (fun kw => strIncludes lower kw)

def escalationKeywords : List String :=
  ["speak to someone", "real person", "human", "manager", "supervisor", "complaint",
   "refund", "scam", "fraud", "not working for days", "still not fixed"]

/-- Embedding of `shouldEscalateToHuman`: explicit `human_request` intent, or a
frustrated sentiment already on the context, or any escalation keyword in the
lowercased message; the trailing trial-expired/three-follow-ups clause returns
`false`, exactly as the final fall-through does. -/
def shouldEscalateToHuman (context : CustomerContext) (message : String)
    (intent : String) : Bool :=
  if intent = "human_request" then true
  else if context.sentiment = some .frustrated then true
  else
    let lowerMessage := lowerStr message
    if escalationKeywords.any (fun kw => strIncludes lowerMessage kw) then true
    else if context.followUpsSent ≥ 3 && context.state = .trial_expired then false
    else false

/-- Anchored match of `device\s*key[:\s]*([A-Za-z0-9]+)` (case-insensitive):
the literal `device`, optional whitespace, the literal `key`, any run of
colons/whitespace, then the captured alphanumeric run in original case. -/
def deviceKeyAt (cs : List Char) : Option (List Char) :=
  match cs with
  | c1 :: c2 :: c3 :: c4 :: c5 :: c6 :: rest =>
    if ([c1, c2, c3, c4, c5, c6].map Char.toLower) = "device".toList then
      match rest.dropWhile Char.isWhitespace with
      | k1 :: k2 :: k3 :: rest2 =>
        if ([k1, k2, k3].map Char.toLower) = "key".toList then
          let key := (rest2.dropWhile (fun c => c = ':' || c.isWhitespace)).takeWhile
            (fun c => c.isAlpha || c.isDigit)
          if key.isEmpty then none else some key
        else none
      | _ => none
    else none
  | _ => none

/-- Leftmost match of the device-key regex of `updateContextFromIntent`,
returning the captured group. -/
def extractDeviceKey (message : String) : Option String :=
  (scanLeftmost deviceKeyAt message.toList).map String.mk

/-- Adult-content keyword check shared by `updateContextFromIntent` and
`handleContentPreference`. -/
def mentionsAdultContent (message : String) : Bool :=
  let lower := lowerStr message
  strIncludes lower "adult" || strIncludes lower "xxx" || strIncludes lower "porn"

/-! ## Display labels (JavaScript string interpolation of the enums) -/

def deviceLabel : DeviceType → String
  | .firestick => "firestick"
  | .android_phone => "android_phone"
  | .smart_tv => "smart_tv"
  | .android_box => "android_box"
  | .tivimate => "tivimate"
  | .other => "other"

def contentPrefLabel : ContentPreference → String
  | .english => "english"
  | .europe => "europe"
  | .worldwide => "worldwide"

def paymentMethodLabel : PaymentMethod → String
  | .revolut => "revolut"
  | .paypal => "paypal"
  | .card => "card"

/-- Embedding of `formatPlanName`. -/
def formatPlanName : PlanType → String
  | .monthly => "Monthly Plan"
  | .yearly => "Yearly Plan"
  | .twoYears => "2-Year Plan"
  | .threeYears => "3-Year Plan"
  | .lifetime => "Lifetime Plan"

/-! ## Admin notification messages (ConversationService.ts) -/

/-- Embedding of `createTrialNotification`. -/
def createTrialNotification (context : CustomerContext) : String :=
  "🆕 NEW TRIAL REQUEST\n\n📱 Device: " ++ ((context.device.map deviceLabel).getD "Unknown")
    ++ "\n📍 MAC Address: " ++ (context.macAddress.getD "N/A")
    ++ "\n🔑 Device Key: " ++ (context.deviceKey.getD "N/A")
    ++ "\n🌍 Content: " ++ ((context.contentPreference.map contentPrefLabel).getD "Not specified")
    ++ "\n" ++ (if context.wantsAdultContent = some true then "🔞 Adult content: YES" else "")
    ++ "\n\n📞 Customer WhatsApp: " ++ context.phone
    ++ "\n\nReply with credentials to activate:\nUsername:\nPassword:\nURL:"

/-- Embedding of `createPaymentNotification`. -/
def createPaymentNotification (context : CustomerContext) : String :=
  "💰 PAYMENT NOTIFICATION\n\n📞 Customer: " ++ context.phone
    ++ "\n📦 Plan: " ++ ((context.plan.map formatPlanName).getD "Unknown")
    ++ "\n💳 Method: " ++ ((context.paymentMethod.map paymentMethodLabel).getD "Unknown")
    ++ "\n\n⚠️ Please verify payment and confirm activation.\n\nReply with \"CONFIRMED\" to activate subscription."

/-! ## Follow-up scheduler (`calculateFollowUpTime`) -/

def msPerHour : Int := 3600000

def msPerDay : Int := 86400000

/-- Trial-state group of `calculateFollowUpTime`. The source divides the
millisecond difference by 3600000 before comparing with 18/23; the comparison
is rendered exactly on milliseconds. -/
def trialFollowUpGroup (context : CustomerContext) (now : Int) : Option (String × Int) :=
  if context.state = .trial_active then
    context.trialStartedAt.bind (fun trialStart =>
      if now - trialStart < 18 * msPerHour && context.followUpsSent = 0 then
        some ("trial_18h", trialStart + 18 * msPerHour)
      else if now - trialStart < 23 * msPerHour && context.followUpsSent ≤ 1 then
        some ("trial_23h", trialStart + 23 * msPerHour)
      else none)
  else none

/-- Ghoster group of `calculateFollowUpTime` (state `awaiting_mac`). -/
def ghosterFollowUpGroup (context : CustomerContext) (now : Int) : Option (String × Int) :=
  if context.state = .awaiting_mac then
    context.lastMessageAt.bind (fun lastMsg =>
      if now - lastMsg ≥ 4 * msPerHour && context.followUpsSent = 0 then
        some ("ghoster_4h", now)
      else if now - lastMsg ≥ 24 * msPerHour && context.followUpsSent = 1 then
        some ("ghoster_nextday", now)
      else none)
  else none

/-- Post-trial group of `calculateFollowUpTime` (state `trial_expired`). -/
def expiredFollowUpGroup (context : CustomerContext) (now : Int) : Option (String × Int) :=
  if context.state = .trial_expired then
    context.trialExpiresAt.bind (fun expiry =>
      if now - expiry ≥ 1 * msPerDay && context.followUpsSent ≤ 2 then
        some ("day1_followup", now)
      else if now - expiry ≥ 3 * msPerDay && context.followUpsSent ≤ 3 then
        some ("day3_followup", now)
      else if now - expiry ≥ 7 * msPerDay && context.followUpsSent ≤ 4 then
        some ("day7_final", now)
      else none)
  else none

/-- Embedding of `calculateFollowUpTime`: the three groups are guarded by
mutually exclusive states, so the sequential fall-through of the source is the
first defined group. -/
def calculateFollowUpTime (context : CustomerContext) (now : Int) : Option (String × Int) :=
  match trialFollowUpGroup context now with
  | some r => some r
  | none =>
    match ghosterFollowUpGroup context now with
    | some r => some r
    | none => expiredFollowUpGroup context now

/-! ## Context store (ConversationService.ts `Map` plus `getOrCreateContext` /
`updateContext`) -/

abbrev Store : Type := List (String × CustomerContext)

def emptyStore : Store := []

def lookupCtx (store : Store) (phone : String) : Option CustomerContext :=
  (store.find? (fun p => p.1 = phone)).map Prod.snd

def insertCtx (store : Store) (phone : String) (context : CustomerContext) : Store :=
  (phone, context) :: store.filter (fun p => ¬ p.1 = phone)

/-- Fresh record created by `getOrCreateContext`. -/
def freshContext (phone : String) (now : Int) : CustomerContext :=
  { phone := phone
    state := .new
    followUpsSent := 0
    needsHuman := false
    createdAt := now
    updatedAt := now }

/-- Embedding of `getOrCreateContext`: returns the stored record, or creates
and stores a fresh one. -/
def getOrCreateContext (store : Store) (phone : String) (now : Int) :
    CustomerContext × Store :=
  match lookupCtx store phone with
  | some context => (context, store)
  | none => (freshContext phone now, insertCtx store phone (freshContext phone now))

/-- Update payload of `updateContext` (`Partial<CustomerContext>`): an outer
`none` is an absent key; for fields that are optional on the record the inner
option is the stored value. -/
structure ContextUpdates where
  phone : Option String := none
  name : Option (Option String) := none
  state : Option ConversationState := none
  previousState : Option (Option ConversationState) := none
  device : Option (Option DeviceType) := none
  macAddress : Option (Option String) := none
  deviceKey : Option (Option String) := none
  contentPreference : Option (Option ContentPreference) := none
  wantsAdultContent : Option (Option Bool) := none
  trialStartedAt : Option (Option Int) := none
  trialExpiresAt : Option (Option Int) := none
  plan : Option (Option PlanType) := none
  subscribedAt : Option (Option Int) := none
  expiresAt : Option (Option CalDate) := none
  paymentMethod : Option (Option PaymentMethod) := none
  paymentPending : Option (Option Bool) := none
  credentials : Option (Option Credentials) := none
  lastMessageAt : Option (Option Int) := none
  followUpsSent : Option Nat := none
  lastFollowUpType : Option (Option String) := none
  needsHuman : Option Bool := none
  escalationReason : Option (Option String) := none
  sentiment : Option (Option Sentiment) := none
  createdAt : Option Int := none
  updatedAt : Option Int := none
deriving DecidableEq, Repr

/-- Field-wise `Object.assign(context, updates)`. -/
def applyUpdates (c : CustomerContext) (u : ContextUpdates) : CustomerContext :=
  { phone := u.phone.getD c.phone
    name := u.name.getD c.name
    state := u.state.getD c.state
    previousState := u.previousState.getD c.previousState
    device := u.device.getD c.device
    macAddress := u.macAddress.getD c.macAddress
    deviceKey := u.deviceKey.getD c.deviceKey
    contentPreference := u.contentPreference.getD c.contentPreference
    wantsAdultContent := u.wantsAdultContent.getD c.wantsAdultContent
    trialStartedAt := u.trialStartedAt.getD c.trialStartedAt
    trialExpiresAt := u.trialExpiresAt.getD c.trialExpiresAt
    plan := u.plan.getD c.plan
    subscribedAt := u.subscribedAt.getD c.subscribedAt
    expiresAt := u.expiresAt.getD c.expiresAt
    paymentMethod := u.paymentMethod.getD c.paymentMethod
    paymentPending := u.paymentPending.getD c.paymentPending
    credentials := u.credentials.getD c.credentials
    lastMessageAt := u.lastMessageAt.getD c.lastMessageAt
    followUpsSent := u.followUpsSent.getD c.followUpsSent
    lastFollowUpType := u.lastFollowUpType.getD c.lastFollowUpType
    needsHuman := u.needsHuman.getD c.needsHuman
    escalationReason := u.escalationReason.getD c.escalationReason
    sentiment := u.sentiment.getD c.sentiment
    createdAt := u.createdAt.getD c.createdAt
    updatedAt := u.updatedAt.getD c.updatedAt }

/-- State-change tracking block of `updateContext`: when the payload carries a
state different from the record's current one, the old state is copied into
`previousState` first. -/
def updCopyStep (c : CustomerContext) (u : ContextUpdates) : CustomerContext :=
  match u.state with
  | some st => if st ≠ c.state then { c with previousState := some c.state } else c
  | none => c

/-- Embedding of `updateContext`: fetch (or create) the record, copy the old
state into `previousState` when the payload carries a different state, apply
the payload with `Object.assign`, stamp `updatedAt` with the clock, store and
return the record. -/
def updateContext (store : Store) (phone : String) (u : ContextUpdates) (now : Int) :
    CustomerContext × Store :=
  let (c0, s0) := getOrCreateContext store phone now
  let c1 := updCopyStep c0 u
  let c2 := { applyUpdates c1 u with updatedAt := now }
  (c2, insertCtx s0 phone c2)

/-- Rendering of an engine call site passing a whole context object as the
update payload: every key of the record is present; optional fields that were
never assigned are absent keys. -/
def contextToUpdates (c : CustomerContext) : ContextUpdates :=
  { phone := some c.phone
    name := c.name.map some
    state := some c.state
    previousState := c.previousState.map some
    device := c.device.map some
    macAddress := c.macAddress.map some
    deviceKey := c.deviceKey.map some
    contentPreference := c.contentPreference.map some
    wantsAdultContent := c.wantsAdultContent.map some
    trialStartedAt := c.trialStartedAt.map some
    trialExpiresAt := c.trialExpiresAt.map some
    plan := c.plan.map some
    subscribedAt := c.subscribedAt.map some
    expiresAt := c.expiresAt.map some
    paymentMethod := c.paymentMethod.map some
    paymentPending := c.paymentPending.map some
    credentials := c.credentials.map some
    lastMessageAt := c.lastMessageAt.map some
    followUpsSent := some c.followUpsSent
    lastFollowUpType := c.lastFollowUpType.map some
    needsHuman := some c.needsHuman
    escalationReason := c.escalationReason.map some
    sentiment := c.sentiment.map some
    createdAt := some c.createdAt
    updatedAt := some c.updatedAt }

/-! ## Intent classifier (`detectIntent`) -/

/-- Entity record of an `IntentResult`. Entities with an enum contract are
modelled at that contract (`none` covering null-ish classifier output); the
free string entities keep the `isValid` string filtering. -/
structure IntentEntities where
  device : Option DeviceType := none
  plan_interest : Option PlanType := none
  content_preference : Option ContentPreference := none
  mac_address : Option String := none
  device_key : Option String := none
  payment_method : Option PaymentMethod := none
deriving DecidableEq, Repr

structure IntentResult where
  intent : String
  confidence : ℚ
  entities : IntentEntities
  sentiment : Sentiment
  needs_human : Bool
deriving DecidableEq, Repr

/-- Safe default returned when the model client is not configured. -/
def defaultIntentUnconfigured : IntentResult :=
  { intent := "other", confidence := 0, entities := {}, sentiment := .neutral,
    needs_human := false }

/-- Safe default returned after a model call that failed or produced no
parsable JSON object. -/
def defaultIntentFallback : IntentResult :=
  { intent := "other", confidence := 1/2, entities := {}, sentiment := .neutral,
    needs_human := false }

/-- Embedding of `detectIntent`. `configured` is `anthropic !== null`;
`callResult` is the model call (`Except.error` when the request threw);
`parseResult` stands for matching the first JSON object of the response text
and `JSON.parse` of it (`none` when no object was found or parsing threw). -/
def detectIntent (configured : Bool) (callResult : Except Unit String)
    (parseResult : String → Option IntentResult) : IntentResult :=
  if ¬ configured then
    defaultIntentUnconfigured
  else
    match callResult with
    | .error _ => defaultIntentFallback
    | .ok content =>
      match parseResult content with
      | some result => result
      | none => defaultIntentFallback

/-! ## Conversation engine (AIService.ts, current version) -/

/-- String-entity filter `isValid` of `updateContextFromIntent`. -/
def validEntityStr (v : Option String) : Option String :=
  v.bind (fun s =>
    if s = "null" || s = "none" || s = "N/A" || s.length = 0 then none else some s)

/-- Step of `updateContextFromIntent`: adult-content keyword flag from the raw
message. -/
def stepAdultFlag (message : String) (c : CustomerContext) : CustomerContext :=
  if mentionsAdultContent message then { c with wantsAdultContent := some true } else c

/-- Step of `updateContextFromIntent`: MAC heuristic on the raw message when
the field is still empty. -/
def stepMacHeuristic (message : String) (c : CustomerContext) : CustomerContext :=
  if c.macAddress = none then { c with macAddress := extractMacAddress message } else c

/-- Step of `updateContextFromIntent`: device-key regex on the raw message
when the field is still empty. -/
def stepDeviceKeyHeuristic (message : String) (c : CustomerContext) : CustomerContext :=
  if c.deviceKey = none then { c with deviceKey := extractDeviceKey message } else c

/-- Step of `updateContextFromIntent`: content-preference heuristic on the raw
message when the field is still empty. -/
def stepContentPrefHeuristic (message : String) (c : CustomerContext) : CustomerContext :=
  if c.contentPreference = none then
    { c with contentPreference := extractContentPreference message }
  else c

/-- Step of `updateContextFromIntent`: device heuristic on the raw message
when the field is still empty. -/
def stepDeviceHeuristic (message : String) (c : CustomerContext) : CustomerContext :=
  if c.device = none then { c with device := extractDeviceType message } else c

/-- Step of `updateContextFromIntent`: classifier device entity into a
still-empty field. -/
def stepDeviceEntity (intent : IntentResult) (c : CustomerContext) : CustomerContext :=
  match c.device, intent.entities.device with
  | none, some d => { c with device := some d }
  | _, _ => c

/-- Step of `updateContextFromIntent`: classifier plan-interest entity into a
still-empty field. -/
def stepPlanEntity (intent : IntentResult) (c : CustomerContext) : CustomerContext :=
  match c.plan, intent.entities.plan_interest with
  | none, some p => { c with plan := some p }
  | _, _ => c

/-- Step of `updateContextFromIntent`: classifier content-preference entity
into a still-empty field. -/
def stepContentPrefEntity (intent : IntentResult) (c : CustomerContext) : CustomerContext :=
  match c.contentPreference, intent.entities.content_preference with
  | none, some p => { c with contentPreference := some p }
  | _, _ => c

/-- Step of `updateContextFromIntent`: classifier MAC entity (string-filtered)
into a still-empty field. -/
def stepMacEntity (intent : IntentResult) (c : CustomerContext) : CustomerContext :=
  match c.macAddress, validEntityStr intent.entities.mac_address with
  | none, some m => { c with macAddress := some m }
  | _, _ => c

/-- Step of `updateContextFromIntent`: classifier device-key entity
(string-filtered) into a still-empty field. -/
def stepDeviceKeyEntity (intent : IntentResult) (c : CustomerContext) : CustomerContext :=
  match c.deviceKey, validEntityStr intent.entities.device_key with
  | none, some k => { c with deviceKey := some k }
  | _, _ => c

/-- Step of `updateContextFromIntent`: classifier payment-method entity into a
still-empty field. -/
def stepPaymentMethodEntity (intent : IntentResult) (c : CustomerContext) : CustomerContext :=
  match c.paymentMethod, intent.entities.payment_method with
  | none, some pm => { c with paymentMethod := some pm }
  | _, _ => c

/-- Embedding of `updateContextFromIntent` (current engine): sentiment is
always overwritten; heuristics on the raw message fill still-empty fields
first; classifier entities fill fields that are still empty after that. The
steps compose in source order. -/
def updateContextFromIntent (context : CustomerContext) (intent : IntentResult)
    (message : String) : CustomerContext :=
  stepPaymentMethodEntity intent
    (stepDeviceKeyEntity intent
      (stepMacEntity intent
        (stepContentPrefEntity intent
          (stepPlanEntity intent
            (stepDeviceEntity intent
              (stepDeviceHeuristic message
                (stepContentPrefHeuristic message
                  (stepDeviceKeyHeuristic message
                    (stepMacHeuristic message
                      (stepAdultFlag message
                        { context with sentiment := some intent.sentiment }))))))))))

def adminOwnedStates : List ConversationState :=
  [.trial_active, .trial_expired, .awaiting_payment, .payment_pending,
   .active_subscriber, .needs_human]

/-- Embedding of `updateStateFromContext`: the auto-advance rule, disabled in
the admin-owned states. -/
def updateStateFromContext (context : CustomerContext) : CustomerContext :=
  if adminOwnedStates.contains context.state then
    context
  else if context.device.isSome && (context.macAddress.isSome || context.deviceKey.isSome)
      && context.contentPreference.isSome then
    { context with state := .trial_pending }
  else if context.device.isSome && (context.macAddress.isSome || context.deviceKey.isSome) then
    { context with state := .awaiting_content_pref }
  else if context.device.isSome then
    { context with state := .awaiting_mac }
  else if context.state = .new then
    { context with state := .awaiting_device }
  else
    context

inductive NotificationType where
  | trial_request
  | payment_received
  | technical_issue
  | escalation
deriving DecidableEq, Repr

structure AdminNotification where
  ntype : NotificationType
  message : String
deriving DecidableEq, Repr

/-- Embedding of `checkForAdminNotification` (current engine). The payment
branch mutates the context (state and payment-pending flag); the function
returns the context as left behind together with the optional notification. -/
def checkForAdminNotification (context : CustomerContext) (prevState : ConversationState)
    (intent : IntentResult) (message : String) :
    CustomerContext × Option AdminNotification :=
  if context.state = .trial_pending ∧ prevState ≠ .trial_pending then
    (context, some ⟨.trial_request, createTrialNotification context⟩)
  else if intent.intent = "payment" ∧ isPaymentConfirmation message then
    let c := { context with state := .payment_pending, paymentPending := some true }
    (c, some ⟨.payment_received, createPaymentNotification c⟩)
  else if intent.intent = "technical_issue" then
    (context,
     some ⟨.technical_issue,
       "⚠️ TECHNICAL ISSUE\n\nCustomer: " ++ context.phone ++ "\nDevice: "
         ++ ((context.device.map deviceLabel).getD "Unknown") ++ "\n\nIssue: \"" ++ message ++ "\""⟩)
  else
    (context, none)

/-- Result shape of `handleIncomingMessage` (the context carried by the
response is the value of `response.context` at return time). -/
structure ChatbotResponse where
  message : String
  context : CustomerContext
  shouldNotifyAdmin : Bool
  adminNotification : Option AdminNotification
deriving DecidableEq, Repr

/-- Fixed placation message of the escalation branch. -/
def escalationReply : String :=
  "I’m getting one of our team members to help you right away. They’ll message you shortly! 👍"

def escalationNotificationText (phone : String) (intent : IntentResult)
    (message : String) : String :=
  "🚨 ESCALATION NEEDED\n\nCustomer: " ++ phone ++ "\nReason: "
    ++ (if intent.intent = "human_request" then "Requested human" else "Detected frustration")
    ++ "\nLast message: \"" ++ message ++ "\""

/-- Fixed apology of the generation-failure branch of `generateAIResponse`. -/
def generationFailureReply : String :=
  "Sorry, I’m having a technical issue right now. Let me get someone to help you! 👍"

def aiErrorNotificationText (phone message : String) : String :=
  "🚨 AI ERROR\n\nCustomer: " ++ phone ++ "\nError: Unknown\nLast message: \"" ++ message ++ "\""

/-- Embedding of the current engine's `handleIncomingMessage` →
`processMessage` → `generateAIResponse` / `checkForAdminNotification`
pipeline, for one inbound message of one phone.

All mutations up to the store write-back happen on the very object the store
holds, so the store is kept in sync after every mutation block. When reply
generation succeeds (`genOutcome = some content`) the response carries that
same aliased object; when it throws (`genOutcome = none`) the response carries
a detached spread copy (`needsHuman := true`) taken before
`checkForAdminNotification` ran, and that stale copy is what the final
`updateContext` receives as payload. -/
def handleIncomingMessage (store : Store) (phone message : String) (intent : IntentResult)
    (genOutcome : Option String) (now : Int) : ChatbotResponse × Store :=
  let (ctx0, s0) := getOrCreateContext store phone now
  let ctx1 := updateContextFromIntent { ctx0 with lastMessageAt := some now } intent message
  if shouldEscalateToHuman ctx1 message intent.intent then
    let ctx2 := { ctx1 with needsHuman := true, state := .needs_human }
    let s1 := insertCtx s0 phone ctx2
    let (c3, s2) := updateContext s1 phone (contextToUpdates ctx2) now
    ({ message := escalationReply
       context := c3
       shouldNotifyAdmin := true
       adminNotification := some ⟨.escalation, escalationNotificationText phone intent message⟩ },
     s2)
  else
    let prevState := ctx1.state
    let ctx2 := updateStateFromContext ctx1
    let (ctx3, notification) := checkForAdminNotification ctx2 prevState intent message
    let s1 := insertCtx s0 phone ctx3
    match genOutcome with
    | some content =>
      let (c4, s2) := updateContext s1 phone (contextToUpdates ctx3) now
      ({ message := content
         context := c4
         shouldNotifyAdmin := notification.isSome
         adminNotification := notification }, s2)
    | none =>
      let staleCopy := { ctx2 with needsHuman := true }
      let (_, s2) := updateContext s1 phone (contextToUpdates staleCopy) now
      ({ message := generationFailureReply
         context := staleCopy
         shouldNotifyAdmin := true
         adminNotification :=
           match notification with
           | some n => some n
           | none => some ⟨.escalation, aiErrorNotificationText phone message⟩ }, s2)

/-! ## Admin activation operations (AIService.ts) -/

structure RawCredentials where
  username : String
  password : String
  url : String
deriving DecidableEq, Repr

/-- Derived stream URL stored next to the credentials. -/
def m3uUrlOf (credentials : RawCredentials) : String :=
  credentials.url ++ "/get.php?username=" ++ credentials.username ++ "&password="
    ++ credentials.password ++ "&type=m3u_plus&output=ts"

/-- Embedding of `activateTrial`: force `trial_active`, stamp the trial window
(24 h), store credentials plus derived stream URL, write back through
`updateContext` with the same aliased object. -/
def activateTrial (store : Store) (phone : String) (credentials : RawCredentials)
    (now : Int) : ChatbotResponse × Store :=
  let (ctx0, s0) := getOrCreateContext store phone now
  let ctx1 :=
    { ctx0 with
      state := .trial_active
      trialStartedAt := some now
      trialExpiresAt := some (now + 24 * msPerHour)
      credentials := some
        { username := credentials.username
          password := credentials.password
          url := credentials.url
          m3uUrl := some (m3uUrlOf credentials) } }
  let s1 := insertCtx s0 phone ctx1
  let (c2, s2) := updateContext s1 phone (contextToUpdates ctx1) now
  ({ message := "🎉 Your trial is live!"
     context := c2
     shouldNotifyAdmin := false
     adminNotification := none }, s2)

/-- Expiry month count per plan as `activateSubscription` computes it:
`setMonth(getMonth() + n)` for the first four plans and
`setFullYear(getFullYear() + 6)` for lifetime. -/
def subscriptionExpiry (nowCal : CalDate) : PlanType → CalDate
  | .monthly => nowCal.addMonths 1
  | .yearly => nowCal.addMonths 14
  | .twoYears => nowCal.addMonths 28
  | .threeYears => nowCal.addMonths 36
  | .lifetime => nowCal.addYears 6

/-- Embedding of `activateSubscription`: force `active_subscriber`, store plan
and subscribed-at, clear payment-pending, store credentials plus derived
stream URL, compute the plan-specific expiry, write back through
`updateContext` with the same aliased object. `nowMs` and `nowCal` are the
millisecond and calendar views of the same activation instant. -/
def activateSubscription (store : Store) (phone : String) (plan : PlanType)
    (credentials : RawCredentials) (nowMs : Int) (nowCal : CalDate) :
    ChatbotResponse × Store :=
  let (ctx0, s0) := getOrCreateContext store phone nowMs
  let ctx1 :=
    { ctx0 with
      state := .active_subscriber
      plan := some plan
      subscribedAt := some nowMs
      paymentPending := some false
      credentials := some
        { username := credentials.username
          password := credentials.password
          url := credentials.url
          m3uUrl := some (m3uUrlOf credentials) }
      expiresAt := some (subscriptionExpiry nowCal plan) }
  let s1 := insertCtx s0 phone ctx1
  let (c2, s2) := updateContext s1 phone (contextToUpdates ctx1) nowMs
  ({ message := "🎉 Welcome to BingeBear!\n\nYour " ++ formatPlanName plan ++ " is now active ✅"
     context := c2
     shouldNotifyAdmin := false
     adminNotification := none }, s2)

/-! ## Legacy state-machine engine: `handleContentPreference`
(src/services/ai/AIService.ts) -/

/-- Embedding of the legacy `handleContentPreference` state handler: classifier
entity first, then the keyword heuristic, defaulting to `english`; adult
keyword sets the flag; state forced to `trial_pending` with exactly one
`trial_request` notification built from the updated context. -/
def handleContentPreference (context : CustomerContext) (message : String)
    (intent : IntentResult) : ChatbotResponse :=
  let pref :=
    match intent.entities.content_preference with
    | some p => some p
    | none => extractContentPreference message
  let c1 :=
    if mentionsAdultContent message then { context with wantsAdultContent := some true }
    else context
  let c2 := { c1 with contentPreference := some (pref.getD .english), state := .trial_pending }
  { message := "Perfect! I’m setting up your trial now...\n\nYou’ll be watching in about 2 minutes! I’ll message you as soon as it’s ready 👍"
    context := c2
    shouldNotifyAdmin := true
    adminNotification := some ⟨.trial_request, createTrialNotification c2⟩ }

/-! ## Role-alternation transform (`ensureAlternatingRoles`) -/

inductive ChatRole where
  | user
  | assistant
deriving DecidableEq, Repr

structure ChatMsg where
  role : ChatRole
  content : String
deriving DecidableEq, Repr

/-- Merge pass of `ensureAlternatingRoles`: walking the list front to back, a
message whose role equals the previous accumulated one is folded into it with
a newline joint. -/
def mergeRuns : List ChatMsg → List ChatMsg
  | [] => []
  | [m] => [m]
  | m1 :: m2 :: rest =>
    if m1.role = m2.role then
      mergeRuns ({ role := m1.role, content := m1.content ++ "\n" ++ m2.content } :: rest)
    else
      m1 :: mergeRuns (m2 :: rest)
termination_by msgs => msgs.length

/-- Embedding of `ensureAlternatingRoles`: merge consecutive same-role
messages, then `shift()` one leading message when it is not a user turn. -/
def ensureAlternatingRoles (msgs : List ChatMsg) : List ChatMsg :=
  match mergeRuns msgs with
  | [] => []
  | m :: rest => if m.role ≠ .user then rest else m :: rest

/-- Specification-side split of a message list into its maximal runs of equal
role, every run keeping its contents in order. -/
def runsSplit : List ChatMsg → List (ChatRole × List String)
  | [] => []
  | m :: rest =>
    match runsSplit rest with
    | [] => [(m.role, [m.content])]
    | (r, cs) :: more =>
      if m.role = r then (m.role, m.content :: cs) :: more
      else (m.role, [m.content]) :: (r, cs) :: more

/-- Specification-side joint of a run's contents: the contents in order with a
newline between consecutive ones. -/
def joinRun : List String → String
  | [] => ""
  | [c] => c
  | c :: rest => c ++ "\n" ++ joinRun rest

/-- Specification-side merged sequence: one message per maximal same-role run,
carrying the joined contents. -/
def mergedOfRuns (msgs : List ChatMsg) : List ChatMsg :=
  (runsSplit msgs).map (fun rc => { role := rc.1, content := joinRun rc.2 })

/-- Specification-side trim: drop one leading message when it is not a user
turn. -/
def dropLeadingNonUser : List ChatMsg → List ChatMsg
  | [] => []
  | m :: rest => if m.role ≠ .user then rest else m :: rest

/-! ## Concrete inputs and claim predicates -/

/-- Ghosted lead of the escalation-suppression clause: `trial_expired` with
three follow-ups already sent and a neutral last sentiment. -/
def ghostLeadContext : CustomerContext :=
  { phone := "353870000001"
    state := .trial_expired
    followUpsSent := 3
    needsHuman := false
    sentiment := some .neutral
    createdAt := 0
    updatedAt := 0 }

/-- Context of the follow-up-due scenario: `trial_active`, trial started at
instant 0, no follow-up sent yet. -/
def trialActiveAt0 : CustomerContext :=
  { phone := "353870000002"
    state := .trial_active
    trialStartedAt := some 0
    followUpsSent := 0
    needsHuman := false
    createdAt := 0
    updatedAt := 0 }

/-- Conclusion of claim C4, for an arbitrary context: the handler sets the
recognized (or defaulted) content preference, flags adult content on its
keyword, moves to `trial_pending`, and returns exactly one `trial_request`
notification whose message interpolates the context's device label, MAC and
device key (their "Unknown"/"N/A" displays when absent), the
content-preference label and the phone. -/
def ContentPrefClaim (ctx : CustomerContext) (message : String)
    (intent : IntentResult) : Prop :=
  let r := handleContentPreference ctx message intent
  r.context.state = .trial_pending
  ∧ r.context.contentPreference = some ((match intent.entities.content_preference with
      | some p => some p
      | none => extractContentPreference message).getD .english)
  ∧ (mentionsAdultContent message = true → r.context.wantsAdultContent = some true)
  ∧ r.shouldNotifyAdmin = true
  ∧ r.adminNotification = some ⟨.trial_request, createTrialNotification r.context⟩
  ∧ createTrialNotification r.context =
      "🆕 NEW TRIAL REQUEST\n\n📱 Device: " ++ ((ctx.device.map deviceLabel).getD "Unknown")
      ++ "\n📍 MAC Address: " ++ (ctx.macAddress.getD "N/A")
      ++ "\n🔑 Device Key: " ++ (ctx.deviceKey.getD "N/A")
      ++ "\n🌍 Content: "
      ++ contentPrefLabel ((match intent.entities.content_preference with
          | some p => some p
          | none => extractContentPreference message).getD .english)
      ++ "\n"
      ++ (if r.context.wantsAdultContent = some true then "🔞 Adult content: YES" else "")
      ++ "\n\n📞 Customer WhatsApp: " ++ ctx.phone
      ++ "\n\nReply with credentials to activate:\nUsername:\nPassword:\nURL:"

/-- Concrete context for the C4 witness: the spec's funnel scenario, with a
collected MAC but no device key. -/
def contentPrefCtx : CustomerContext :=
  { phone := "353870000003"
    state := .awaiting_content_pref
    device := some .firestick
    macAddress := some "AA:BB:CC:DD:EE:FF"
    followUpsSent := 0
    needsHuman := false
    createdAt := 0
    updatedAt := 0 }

/-- Trace of the `updatedAt` stamps observed across a sequence of further
`updateContext` calls on the same phone. -/
def updateRunTrace (store : Store) (phone : String) :
    List (ContextUpdates × Int) → List Int
  | [] => []
  | (u, t) :: rest =>
    (updateContext store phone u t).1.updatedAt ::
      updateRunTrace (updateContext store phone u t).2 phone rest

/-- Conclusion of claim C6: the returned record is stored, carries the
refreshed `updatedAt`, the old state copied into `previousState` exactly when
the payload carries a different state (a `previousState` key on the payload
itself is then applied by `Object.assign`, as the merge requires), and every
field merged payload-over-record; and across any further update calls with
non-decreasing clock stamps the observed `updatedAt` values are
non-decreasing. -/
def UpdateClaim (store : Store) (phone : String) (u : ContextUpdates) (now : Int) : Prop :=
  let base := (getOrCreateContext store phone now).1
  let r := updateContext store phone u now
  r.1.updatedAt = now
  ∧ lookupCtx r.2 phone = some r.1
  ∧ r.1.state = u.state.getD base.state
  ∧ (∀ st, u.state = some st → st ≠ base.state →
      r.1.previousState = u.previousState.getD (some base.state))
  ∧ ((u.state = none ∨ u.state = some base.state) →
      r.1.previousState = u.previousState.getD base.previousState)
  ∧ r.1.phone = u.phone.getD base.phone
  ∧ r.1.name = u.name.getD base.name
  ∧ r.1.device = u.device.getD base.device
  ∧ r.1.macAddress = u.macAddress.getD base.macAddress
  ∧ r.1.deviceKey = u.deviceKey.getD base.deviceKey
  ∧ r.1.contentPreference = u.contentPreference.getD base.contentPreference
  ∧ r.1.wantsAdultContent = u.wantsAdultContent.getD base.wantsAdultContent
  ∧ r.1.trialStartedAt = u.trialStartedAt.getD base.trialStartedAt
  ∧ r.1.trialExpiresAt = u.trialExpiresAt.getD base.trialExpiresAt
  ∧ r.1.plan = u.plan.getD base.plan
  ∧ r.1.subscribedAt = u.subscribedAt.getD base.subscribedAt
  ∧ r.1.expiresAt = u.expiresAt.getD base.expiresAt
  ∧ r.1.paymentMethod = u.paymentMethod.getD base.paymentMethod
  ∧ r.1.paymentPending = u.paymentPending.getD base.paymentPending
  ∧ r.1.credentials = u.credentials.getD base.credentials
  ∧ r.1.lastMessageAt = u.lastMessageAt.getD base.lastMessageAt
  ∧ r.1.followUpsSent = u.followUpsSent.getD base.followUpsSent
  ∧ r.1.lastFollowUpType = u.lastFollowUpType.getD base.lastFollowUpType
  ∧ r.1.needsHuman = u.needsHuman.getD base.needsHuman
  ∧ r.1.escalationReason = u.escalationReason.getD base.escalationReason
  ∧ r.1.sentiment = u.sentiment.getD base.sentiment
  ∧ r.1.createdAt = u.createdAt.getD base.createdAt
  ∧ (∀ calls : List (ContextUpdates × Int),
      List.Chain (· ≤ ·) now (calls.map Prod.snd) →
      List.Chain (· ≤ ·) r.1.updatedAt (updateRunTrace r.2 phone calls))

/-- Payload for the C6 witness: a state change plus one merged field. -/
def updatePayloadW : ContextUpdates :=
  { state := some .trial_active
    device := some (some .firestick) }

/-- Every record of the store has its `previousState` audit field unassigned. -/
def PrevStateUnset (s : Store) : Prop :=
  ∀ pc ∈ s, (Prod.snd pc).previousState = none

/-- Stores reachable from the empty store through the engine's operations when
every free-text reply generation succeeds: inbound-message handling (arbitrary
message, classifier output, clock) and the two admin activation operations. -/
inductive ReachableOk : Store → Prop where
  | init : ReachableOk emptyStore
  | inbound (s : Store) (phone message : String) (intent : IntentResult) (content : String)
      (now : Int) : ReachableOk s →
      ReachableOk (handleIncomingMessage s phone message intent (some content) now).2
  | trial (s : Store) (phone : String) (credentials : RawCredentials) (now : Int) :
      ReachableOk s → ReachableOk (activateTrial s phone credentials now).2
  | subscription (s : Store) (phone : String) (plan : PlanType)
      (credentials : RawCredentials) (nowMs : Int) (nowCal : CalDate) :
      ReachableOk s →
      ReachableOk (activateSubscription s phone plan credentials nowMs nowCal).2

/-- Payment-intent classifier output used by the concrete runs. -/
def paymentIntent : IntentResult :=
  { intent := "payment", confidence := 1, entities := {}, sentiment := .neutral,
    needs_human := false }

/-- Store after one inbound "paid" turn whose reply generation failed. -/
def genFailStore : Store :=
  (handleIncomingMessage emptyStore "353870000005" "paid" paymentIntent none 0).2

/-- Store after an escalating first message ("human" is an escalation
keyword): the context of the phone ends in `needs_human`. -/
def escalatedStore : Store :=
  (handleIncomingMessage emptyStore "353870000004" "human" defaultIntentUnconfigured
    (some "a team member will help") 0).2

/-- Store after a further inbound "paid" message with payment intent processed
on the escalated context. -/
def escalatedThenPaidStore : Store :=
  (handleIncomingMessage escalatedStore "353870000004" "paid" paymentIntent
    (some "got it") 1).2

/-- Concrete `needs_human` context for the C1 witness. -/
def needsHumanCtx : CustomerContext :=
  { phone := "353870000007"
    state := .needs_human
    followUpsSent := 0
    needsHuman := true
    createdAt := 0
    updatedAt := 0 }

/-! ## Store lemmas -/

theorem updCopyStep_of_none {u : ContextUpdates} (c : CustomerContext)
    (hu : u.state = none) : updCopyStep c u = c := by
  unfold updCopyStep
  rw [hu]

theorem updCopyStep_of_same {u : ContextUpdates} (c : CustomerContext)
    (hu : u.state = some c.state) : updCopyStep c u = c := by
  unfold updCopyStep
  rw [hu]
  simp

theorem updCopyStep_of_diff {u : ContextUpdates} (c : CustomerContext)
    (st : ConversationState) (hu : u.state = some st) (hne : st ≠ c.state) :
    updCopyStep c u = { c with previousState := some c.state } := by
  unfold updCopyStep
  rw [hu]
  simp [hne]

theorem updCopyStep_state (c : CustomerContext) (u : ContextUpdates) :
    (updCopyStep c u).state = c.state := by
  unfold updCopyStep
  repeat' split
  all_goals rfl

theorem lookupCtx_insertCtx_self (store : Store) (phone : String) (c : CustomerContext) :
    lookupCtx (insertCtx store phone c) phone = some c := by
  simp [lookupCtx, insertCtx, List.find?]

theorem getOrCreateContext_of_lookup (store : Store) (phone : String) (now : Int)
    (c : CustomerContext) (h : lookupCtx store phone = some c) :
    getOrCreateContext store phone now = (c, store) := by
  simp [getOrCreateContext, h]

theorem optMapSome_getD {α : Type} (o : Option α) : (o.map some).getD o = o := by
  cases o <;> rfl

theorem applyUpdates_self (c : CustomerContext) :
    applyUpdates c (contextToUpdates c) = c := by
  cases c
  simp [applyUpdates, contextToUpdates, optMapSome_getD]

/-- Aliased write-back: when the update payload is the whole record the store
currently holds, `updateContext` only refreshes `updatedAt`. -/
theorem updateContext_aliased (store : Store) (phone : String) (now : Int)
    (c : CustomerContext) (h : lookupCtx store phone = some c) :
    updateContext store phone (contextToUpdates c) now =
      ({ c with updatedAt := now }, insertCtx store phone { c with updatedAt := now }) := by
  have hg := getOrCreateContext_of_lookup store phone now c h
  cases c
  unfold updateContext
  rw [hg]
  simp [contextToUpdates, applyUpdates, optMapSome_getD, updCopyStep]

theorem updateContext_lookup (store : Store) (phone : String) (u : ContextUpdates) (now : Int) :
    lookupCtx (updateContext store phone u now).2 phone = some (updateContext store phone u now).1 := by
  unfold updateContext
  simp [lookupCtx_insertCtx_self]

theorem updateContext_state (store : Store) (phone : String) (u : ContextUpdates) (now : Int) :
    (updateContext store phone u now).1.state =
      u.state.getD (getOrCreateContext store phone now).1.state := by
  unfold updateContext
  simp [applyUpdates, updCopyStep_state]

/-! ## Preservation lemmas for the engine's mutation blocks -/

@[simp] theorem stepAdultFlag_prev (m : String) (c : CustomerContext) :
    (stepAdultFlag m c).previousState = c.previousState := by
  unfold stepAdultFlag; split <;> rfl

@[simp] theorem stepAdultFlag_state (m : String) (c : CustomerContext) :
    (stepAdultFlag m c).state = c.state := by
  unfold stepAdultFlag; split <;> rfl

@[simp] theorem stepMacHeuristic_prev (m : String) (c : CustomerContext) :
    (stepMacHeuristic m c).previousState = c.previousState := by
  unfold stepMacHeuristic; split <;> rfl

@[simp] theorem stepMacHeuristic_state (m : String) (c : CustomerContext) :
    (stepMacHeuristic m c).state = c.state := by
  unfold stepMacHeuristic; split <;> rfl

@[simp] theorem stepDeviceKeyHeuristic_prev (m : String) (c : CustomerContext) :
    (stepDeviceKeyHeuristic m c).previousState = c.previousState := by
  unfold stepDeviceKeyHeuristic; split <;> rfl

@[simp] theorem stepDeviceKeyHeuristic_state (m : String) (c : CustomerContext) :
    (stepDeviceKeyHeuristic m c).state = c.state := by
  unfold stepDeviceKeyHeuristic; split <;> rfl

@[simp] theorem stepContentPrefHeuristic_prev (m : String) (c : CustomerContext) :
    (stepContentPrefHeuristic m c).previousState = c.previousState := by
  unfold stepContentPrefHeuristic; split <;> rfl

@[simp] theorem stepContentPrefHeuristic_state (m : String) (c : CustomerContext) :
    (stepContentPrefHeuristic m c).state = c.state := by
  unfold stepContentPrefHeuristic; split <;> rfl

@[simp] theorem stepDeviceHeuristic_prev (m : String) (c : CustomerContext) :
    (stepDeviceHeuristic m c).previousState = c.previousState := by
  unfold stepDeviceHeuristic; split <;> rfl

@[simp] theorem stepDeviceHeuristic_state (m : String) (c : CustomerContext) :
    (stepDeviceHeuristic m c).state = c.state := by
  unfold stepDeviceHeuristic; split <;> rfl

@[simp] theorem stepDeviceEntity_prev (i : IntentResult) (c : CustomerContext) :
    (stepDeviceEntity i c).previousState = c.previousState := by
  unfold stepDeviceEntity; split <;> rfl

@[simp] theorem stepDeviceEntity_state (i : IntentResult) (c : CustomerContext) :
    (stepDeviceEntity i c).state = c.state := by
  unfold stepDeviceEntity; split <;> rfl

@[simp] theorem stepPlanEntity_prev (i : IntentResult) (c : CustomerContext) :
    (stepPlanEntity i c).previousState = c.previousState := by
  unfold stepPlanEntity; split <;> rfl

@[simp] theorem stepPlanEntity_state (i : IntentResult) (c : CustomerContext) :
    (stepPlanEntity i c).state = c.state := by
  unfold stepPlanEntity; split <;> rfl

@[simp] theorem stepContentPrefEntity_prev (i : IntentResult) (c : CustomerContext) :
    (stepContentPrefEntity i c).previousState = c.previousState := by
  unfold stepContentPrefEntity; split <;> rfl

@[simp] theorem stepContentPrefEntity_state (i : IntentResult) (c : CustomerContext) :
    (stepContentPrefEntity i c).state = c.state := by
  unfold stepContentPrefEntity; split <;> rfl

@[simp] theorem stepMacEntity_prev (i : IntentResult) (c : CustomerContext) :
    (stepMacEntity i c).previousState = c.previousState := by
  unfold stepMacEntity; split <;> rfl

@[simp] theorem stepMacEntity_state (i : IntentResult) (c : CustomerContext) :
    (stepMacEntity i c).state = c.state := by
  unfold stepMacEntity; split <;> rfl

@[simp] theorem stepDeviceKeyEntity_prev (i : IntentResult) (c : CustomerContext) :
    (stepDeviceKeyEntity i c).previousState = c.previousState := by
  unfold stepDeviceKeyEntity; split <;> rfl

@[simp] theorem stepDeviceKeyEntity_state (i : IntentResult) (c : CustomerContext) :
    (stepDeviceKeyEntity i c).state = c.state := by
  unfold stepDeviceKeyEntity; split <;> rfl

@[simp] theorem stepPaymentMethodEntity_prev (i : IntentResult) (c : CustomerContext) :
    (stepPaymentMethodEntity i c).previousState = c.previousState := by
  unfold stepPaymentMethodEntity; split <;> rfl

@[simp] theorem stepPaymentMethodEntity_state (i : IntentResult) (c : CustomerContext) :
    (stepPaymentMethodEntity i c).state = c.state := by
  unfold stepPaymentMethodEntity; split <;> rfl

theorem updateContextFromIntent_previousState (c : CustomerContext) (intent : IntentResult)
    (message : String) :
    (updateContextFromIntent c intent message).previousState = c.previousState := by
  simp [updateContextFromIntent]

theorem updateContextFromIntent_state (c : CustomerContext) (intent : IntentResult)
    (message : String) :
    (updateContextFromIntent c intent message).state = c.state := by
  simp [updateContextFromIntent]

theorem updateStateFromContext_previousState (c : CustomerContext) :
    (updateStateFromContext c).previousState = c.previousState := by
  unfold updateStateFromContext
  repeat' split
  all_goals rfl

theorem updateStateFromContext_needsHuman (c : CustomerContext)
    (h : c.state = .needs_human) : updateStateFromContext c = c := by
  unfold updateStateFromContext
  simp [h, adminOwnedStates]

theorem checkForAdminNotification_previousState (c : CustomerContext)
    (prevState : ConversationState) (intent : IntentResult) (message : String) :
    (checkForAdminNotification c prevState intent message).1.previousState = c.previousState := by
  unfold checkForAdminNotification
  repeat' split
  all_goals rfl

theorem checkForAdminNotification_state_of_no_payment (c : CustomerContext)
    (prevState : ConversationState) (intent : IntentResult) (message : String)
    (h : ¬ (intent.intent = "payment" ∧ isPaymentConfirmation message)) :
    (checkForAdminNotification c prevState intent message).1.state = c.state := by
  unfold checkForAdminNotification
  repeat' split
  all_goals rfl

/-! ## Claim C8 -/

/-- C8: `extractMacAddress` returns the uppercased first colon/dash-separated
or bare-12-hex-digit MAC token and `none` when no such token occurs:
`extract_mac("AA:BB:CC:DD:EE:FF") = "AA:BB:CC:DD:EE:FF"`,
`extract_mac("aabbccddeeff") = "AABBCCDDEEFF"`,
`extract_mac("no mac here") = none`. -/
theorem extractMacAddress_roundtrip :
    extractMacAddress "AA:BB:CC:DD:EE:FF" = some "AA:BB:CC:DD:EE:FF"
    ∧ extractMacAddress "aabbccddeeff" = some "AABBCCDDEEFF"
    ∧ extractMacAddress "no mac here" = none := by
  refine ⟨by decide, by decide, by decide⟩

/-! ## Claim C2 -/

/-- C2: evaluation at the input the claim protects. The classifier intent is
`other` and the sentiment is neutral, the context is `trial_expired` with
three follow-ups sent, and the message carries the escalation keywords
"refund" and "scam" — yet `shouldEscalateToHuman` returns `true`, because the
keyword check runs before the ghosted-lead clause and that clause's
`return false` coincides with the default. The claim (and the spec's
suppression exception) say this exact input must not escalate. -/
theorem shouldEscalateToHuman_ghost_keyword_eval :
    shouldEscalateToHuman ghostLeadContext "I want a refund, this is a scam" "other" = true
    ∧ ghostLeadContext.state = .trial_expired
    ∧ 3 ≤ ghostLeadContext.followUpsSent
    ∧ ghostLeadContext.sentiment ≠ some .frustrated := by
  refine ⟨by decide, rfl, by decide, by decide⟩

/-! ## Claim C3 -/

/-- C3 counterexample: nineteen hours into a trial with zero follow-ups sent,
`calculateFollowUpTime` returns `trial_23h` due at start+23h — not `trial_18h`
due at start+18h — and that follow-up is not yet due (`send_at > now`): the
`trial_18h` branch requires fewer than 18 elapsed hours. -/
theorem calculateFollowUpTime_19h_counterexample :
    calculateFollowUpTime trialActiveAt0 (19 * msPerHour) =
      some ("trial_23h", 23 * msPerHour)
    ∧ some (("trial_23h", (23 * msPerHour : Int))) ≠ some ("trial_18h", 18 * msPerHour)
    ∧ ¬ (23 * msPerHour ≤ (19 * msPerHour : Int)) := by
  refine ⟨by decide, by decide, by decide⟩

/-- C3 amended: for every context in `trial_active` with a recorded trial
start, zero follow-ups sent, and 19 elapsed hours, the follow-up computation
returns type `trial_23h` with `send_at = start + 23h`, which is not yet due
(`now < send_at`). -/
theorem calculateFollowUpTime_19h (ctx : CustomerContext) (start now : Int)
    (hstate : ctx.state = .trial_active) (hstart : ctx.trialStartedAt = some start)
    (hfu : ctx.followUpsSent = 0) (helapsed : now - start = 19 * msPerHour) :
    calculateFollowUpTime ctx now = some ("trial_23h", start + 23 * msPerHour)
    ∧ now < start + 23 * msPerHour := by
  have h18 : ¬ (now - start < 18 * msPerHour) := by simp only [msPerHour] at *; omega
  have h23 : now - start < 23 * msPerHour := by simp only [msPerHour] at *; omega
  constructor
  · simp [calculateFollowUpTime, trialFollowUpGroup, hstate, hstart, hfu, h18, h23]
  · simp only [msPerHour] at *; omega

/-- Witness for the C3 amended theorem at the concrete 19-hour input. -/
theorem calculateFollowUpTime_19h_witness :
    trialActiveAt0.state = .trial_active ∧ trialActiveAt0.trialStartedAt = some 0
    ∧ trialActiveAt0.followUpsSent = 0 ∧ (19 * msPerHour - 0 : Int) = 19 * msPerHour
    ∧ (calculateFollowUpTime trialActiveAt0 (19 * msPerHour) =
        some ("trial_23h", 0 + 23 * msPerHour)
      ∧ 19 * msPerHour < (0 : Int) + 23 * msPerHour) :=
  ⟨rfl, rfl, rfl, by decide,
   calculateFollowUpTime_19h trialActiveAt0 0 (19 * msPerHour) rfl rfl rfl (by decide)⟩

/-! ## Claim C7 -/

/-- C7: `detectIntent` never raises — it is a total function into
`IntentResult` — and returns the safe defaults: intent `other`, empty
entities, neutral sentiment, `needs_human = false`, with confidence 0 when
the model client is unconfigured and confidence 0.5 when a model call was
made but errored or produced no parsable JSON object. -/
theorem detectIntent_safe_defaults :
    (∀ (callResult : Except Unit String) (parseResult : String → Option IntentResult),
        detectIntent false callResult parseResult = defaultIntentUnconfigured)
    ∧ (∀ (parseResult : String → Option IntentResult),
        detectIntent true (.error ()) parseResult = defaultIntentFallback)
    ∧ (∀ (content : String) (parseResult : String → Option IntentResult),
        parseResult content = none →
        detectIntent true (.ok content) parseResult = defaultIntentFallback)
    ∧ defaultIntentUnconfigured =
        { intent := "other", confidence := 0, entities := {}, sentiment := .neutral,
          needs_human := false }
    ∧ defaultIntentFallback =
        { intent := "other", confidence := 1/2, entities := {}, sentiment := .neutral,
          needs_human := false } := by
  refine ⟨fun cr pj => rfl, fun pj => rfl, fun content pj h => ?_, rfl, rfl⟩
  simp [detectIntent, h]

/-- Witness for C7 at a concrete unparsable model response. -/
theorem detectIntent_safe_defaults_witness :
    (fun (_ : String) => (none : Option IntentResult)) "no json at all" = none
    ∧ detectIntent true (.ok "no json at all") (fun _ => none) = defaultIntentFallback :=
  ⟨rfl, detectIntent_safe_defaults.2.2.1 "no json at all" (fun _ => none) rfl⟩

/-! ## Claim C5 -/

/-- C5: `activateSubscription` forces `active_subscriber`, stores the plan and
the subscribed-at instant, clears the payment-pending flag, stores the
credentials with the derived stream URL, and sets the expiry to the activation
instant plus the plan table: monthly +1 month, yearly +14 months, 2-years +28
months, 3-years +36 months, lifetime +6 years; the updated record is written
back to the store. -/
theorem activateSubscription_spec (store : Store) (phone : String) (plan : PlanType)
    (cr : RawCredentials) (nowMs : Int) (nowCal : CalDate) :
    (activateSubscription store phone plan cr nowMs nowCal).1.context.state = .active_subscriber
    ∧ (activateSubscription store phone plan cr nowMs nowCal).1.context.plan = some plan
    ∧ (activateSubscription store phone plan cr nowMs nowCal).1.context.subscribedAt = some nowMs
    ∧ (activateSubscription store phone plan cr nowMs nowCal).1.context.paymentPending = some false
    ∧ (activateSubscription store phone plan cr nowMs nowCal).1.context.credentials =
        some { username := cr.username, password := cr.password, url := cr.url,
               m3uUrl := some (m3uUrlOf cr) }
    ∧ (activateSubscription store phone plan cr nowMs nowCal).1.context.expiresAt =
        some (subscriptionExpiry nowCal plan)
    ∧ subscriptionExpiry nowCal .monthly = nowCal.addMonths 1
    ∧ subscriptionExpiry nowCal .yearly = nowCal.addMonths 14
    ∧ subscriptionExpiry nowCal .twoYears = nowCal.addMonths 28
    ∧ subscriptionExpiry nowCal .threeYears = nowCal.addMonths 36
    ∧ subscriptionExpiry nowCal .lifetime = nowCal.addMonths 72
    ∧ lookupCtx (activateSubscription store phone plan cr nowMs nowCal).2 phone =
        some (activateSubscription store phone plan cr nowMs nowCal).1.context := by
  cases hg : getOrCreateContext store phone nowMs with
  | mk ctx0 s0 =>
    simp only [activateSubscription, hg]
    rw [updateContext_aliased _ _ _ _ (lookupCtx_insertCtx_self _ _ _)]
    refine ⟨rfl, rfl, rfl, rfl, rfl, rfl, rfl, rfl, rfl, rfl, ?_, ?_⟩
    · simp [subscriptionExpiry, CalDate.addYears, CalDate.addMonths]
    · exact lookupCtx_insertCtx_self _ _ _

/-! ## Claim C4 -/

/-- C4: for every context in `awaiting_content_pref`, processing a message
through the legacy `handleContentPreference` handler recognizes the content
preference (defaulting to `english`), flags adult content on its keyword,
transitions to `trial_pending`, and fires exactly one `trial_request`
notification carrying the context's device, MAC/device key, content
preference and phone. -/
theorem handleContentPreference_spec (ctx : CustomerContext) (message : String)
    (intent : IntentResult)
    (_hstate : ctx.state = .awaiting_content_pref) :
    ContentPrefClaim ctx message intent := by
  have hdev : (handleContentPreference ctx message intent).context.device = ctx.device := by
    simp only [handleContentPreference]
    split <;> rfl
  have hmac2 : (handleContentPreference ctx message intent).context.macAddress =
      ctx.macAddress := by
    simp only [handleContentPreference]
    split <;> rfl
  have hkey2 : (handleContentPreference ctx message intent).context.deviceKey =
      ctx.deviceKey := by
    simp only [handleContentPreference]
    split <;> rfl
  have hphone2 : (handleContentPreference ctx message intent).context.phone = ctx.phone := by
    simp only [handleContentPreference]
    split <;> rfl
  have hcp : (handleContentPreference ctx message intent).context.contentPreference =
      some ((match intent.entities.content_preference with
        | some p => some p
        | none => extractContentPreference message).getD .english) := rfl
  have hwants : mentionsAdultContent message = true →
      (handleContentPreference ctx message intent).context.wantsAdultContent = some true := by
    intro h
    simp only [handleContentPreference]
    simp [h]
  unfold ContentPrefClaim
  refine ⟨rfl, rfl, hwants, rfl, rfl, ?_⟩
  unfold createTrialNotification
  rw [hdev, hmac2, hkey2, hphone2, hcp]
  simp [String.append_assoc]

/-- Witness for C4 at a concrete context (MAC collected, no device key) and
message. -/
theorem handleContentPreference_spec_witness :
    contentPrefCtx.state = .awaiting_content_pref
    ∧ ContentPrefClaim contentPrefCtx "worldwide please" defaultIntentUnconfigured :=
  ⟨rfl,
   handleContentPreference_spec contentPrefCtx "worldwide please" defaultIntentUnconfigured
     rfl⟩

/-! ## Claim C6 -/

theorem updateContext_updatedAt (store : Store) (phone : String) (u : ContextUpdates)
    (now : Int) : (updateContext store phone u now).1.updatedAt = now := rfl

theorem updateRunTrace_eq (phone : String) (calls : List (ContextUpdates × Int)) :
    ∀ store : Store, updateRunTrace store phone calls = calls.map Prod.snd := by
  induction calls with
  | nil => intro store; rfl
  | cons head rest ih =>
    intro store
    cases head with
    | mk u t => simp [updateRunTrace, updateContext_updatedAt, ih]

/-- C6: the store's `update` merges the given fields into the existing (or
newly created) record, copies the old state into `previousState` exactly when
the payload carries a different state, refreshes `updatedAt` on every call (so
`updatedAt` is non-decreasing across any sequence of update calls whose clock
stamps are non-decreasing), and returns the stored updated record. -/
theorem updateContext_merge_spec (store : Store) (phone : String) (u : ContextUpdates)
    (now : Int) : UpdateClaim store phone u now := by
  have hres : ∀ c1, updCopyStep (getOrCreateContext store phone now).1 u = c1 →
      (updateContext store phone u now).1 = { applyUpdates c1 u with updatedAt := now } := by
    intro c1 hc1
    unfold updateContext
    rw [← hc1]
  unfold UpdateClaim
  cases hu : u.state with
  | none =>
    have h1 := hres _ (updCopyStep_of_none _ hu)
    have hprev4 : ∀ st : ConversationState, (none : Option ConversationState) = some st →
        st ≠ (getOrCreateContext store phone now).1.state →
        (updateContext store phone u now).1.previousState =
          u.previousState.getD (some (getOrCreateContext store phone now).1.state) := by
      intro st hst
      simp at hst
    have hprev5 : ((none : Option ConversationState) = none ∨
        (none : Option ConversationState) = some (getOrCreateContext store phone now).1.state) →
        (updateContext store phone u now).1.previousState =
          u.previousState.getD (getOrCreateContext store phone now).1.previousState := by
      intro _
      rw [h1]
      simp [applyUpdates]
    refine ⟨rfl, updateContext_lookup _ _ _ _, ?_, hprev4, hprev5, ?_, ?_, ?_, ?_, ?_, ?_,
      ?_, ?_, ?_, ?_, ?_, ?_, ?_, ?_, ?_, ?_, ?_, ?_, ?_, ?_, ?_, ?_, ?_⟩
    all_goals
      first
        | (intro calls hchain; rw [updateRunTrace_eq]; simpa using hchain)
        | (rw [h1]; simp [applyUpdates, hu])
  | some st' =>
    by_cases hdiff : st' = (getOrCreateContext store phone now).1.state
    · have h1 := hres _ (updCopyStep_of_same _ (by rw [hu, hdiff]))
      have hprev4 : ∀ st : ConversationState, some st' = some st →
          st ≠ (getOrCreateContext store phone now).1.state →
          (updateContext store phone u now).1.previousState =
            u.previousState.getD (some (getOrCreateContext store phone now).1.state) := by
        intro st hst hne
        injection hst with hst2
        subst hst2
        exact absurd hdiff hne
      have hprev5 : (some st' = (none : Option ConversationState) ∨
          some st' = some (getOrCreateContext store phone now).1.state) →
          (updateContext store phone u now).1.previousState =
            u.previousState.getD (getOrCreateContext store phone now).1.previousState := by
        intro _
        rw [h1]
        simp [applyUpdates]
      refine ⟨rfl, updateContext_lookup _ _ _ _, ?_, hprev4, hprev5, ?_, ?_, ?_, ?_, ?_, ?_,
        ?_, ?_, ?_, ?_, ?_, ?_, ?_, ?_, ?_, ?_, ?_, ?_, ?_, ?_, ?_, ?_, ?_⟩
      all_goals
        first
          | (intro calls hchain; rw [updateRunTrace_eq]; simpa using hchain)
          | (rw [h1]; simp [applyUpdates, hu])
    · have h1 := hres _ (updCopyStep_of_diff _ st' hu hdiff)
      have hprev4 : ∀ st : ConversationState, some st' = some st →
          st ≠ (getOrCreateContext store phone now).1.state →
          (updateContext store phone u now).1.previousState =
            u.previousState.getD (some (getOrCreateContext store phone now).1.state) := by
        intro st hst hne
        rw [h1]
        simp [applyUpdates]
      have hprev5 : (some st' = (none : Option ConversationState) ∨
          some st' = some (getOrCreateContext store phone now).1.state) →
          (updateContext store phone u now).1.previousState =
            u.previousState.getD (getOrCreateContext store phone now).1.previousState := by
        intro hdisj
        rcases hdisj with hnone | hsame
        · simp at hnone
        · injection hsame with hsame2
          exact absurd hsame2 hdiff
      refine ⟨rfl, updateContext_lookup _ _ _ _, ?_, hprev4, hprev5, ?_, ?_, ?_, ?_, ?_, ?_,
        ?_, ?_, ?_, ?_, ?_, ?_, ?_, ?_, ?_, ?_, ?_, ?_, ?_, ?_, ?_, ?_, ?_⟩
      all_goals
        first
          | (intro calls hchain; rw [updateRunTrace_eq]; simpa using hchain)
          | (rw [h1]; simp [applyUpdates, hu])

/-- Witness for C6 at a concrete store, payload and clock, discharging the
state-change implication at a state that differs from the fresh record's. -/
theorem updateContext_merge_spec_witness :
    updatePayloadW.state = some .trial_active
    ∧ ConversationState.trial_active ≠ (getOrCreateContext emptyStore "p" 5).1.state
    ∧ (updateContext emptyStore "p" updatePayloadW 5).1.previousState =
        updatePayloadW.previousState.getD (some (getOrCreateContext emptyStore "p" 5).1.state)
    ∧ UpdateClaim emptyStore "p" updatePayloadW 5 :=
  ⟨rfl, by decide,
   (updateContext_merge_spec emptyStore "p" updatePayloadW 5).2.2.2.1 .trial_active rfl
     (by decide),
   updateContext_merge_spec emptyStore "p" updatePayloadW 5⟩

/-! ## Claim C9 -/

theorem joinRun_glue (a b : String) (cs : List String) :
    joinRun ((a ++ "\n" ++ b) :: cs) = joinRun (a :: b :: cs) := by
  cases cs <;> simp [joinRun, String.append_assoc]

theorem runsSplit_cons_role (m : ChatMsg) (rest : List ChatMsg) :
    ∃ cs more, runsSplit (m :: rest) = (m.role, cs) :: more := by
  unfold runsSplit
  cases h : runsSplit rest with
  | nil => exact ⟨[m.content], [], rfl⟩
  | cons p more =>
    cases p with
    | mk r cs =>
      by_cases hr : m.role = r
      · exact ⟨m.content :: cs, more, by simp [hr]⟩
      · exact ⟨[m.content], (r, cs) :: more, by simp [hr]⟩

theorem mergeRuns_eq (msgs : List ChatMsg) : mergeRuns msgs = mergedOfRuns msgs := by
  induction msgs using mergeRuns.induct with
  | case1 => simp [mergeRuns, mergedOfRuns, runsSplit]
  | case2 m => simp [mergeRuns, mergedOfRuns, runsSplit, joinRun]
  | case3 m1 m2 rest hrole ih =>
    rw [mergeRuns, if_pos hrole, ih]
    unfold mergedOfRuns
    cases hR : runsSplit rest with
    | nil =>
      simp [runsSplit, hR, hrole, joinRun, String.append_assoc]
    | cons p more =>
      cases p with
      | mk r cs =>
        by_cases hr2 : m2.role = r
        · have h1 : m1.role = r := hrole.trans hr2
          simp [runsSplit, hR, hr2, h1, hrole, joinRun_glue]
        · have h1 : ¬ m1.role = r := fun h => hr2 ((hrole.symm).trans h)
          simp [runsSplit, hR, hr2, h1, hrole, joinRun_glue]
  | case4 m1 m2 rest hrole ih =>
    rw [mergeRuns, if_neg hrole, ih]
    unfold mergedOfRuns
    obtain ⟨cs, more, hsplit⟩ := runsSplit_cons_role m2 rest
    have hsplit2 : runsSplit (m1 :: m2 :: rest) =
        (m1.role, [m1.content]) :: runsSplit (m2 :: rest) := by
      rw [runsSplit, hsplit]
      simp [hrole, hsplit]
    rw [hsplit2]
    simp [joinRun]

theorem runsSplit_chain (msgs : List ChatMsg) :
    List.Chain' (fun a b : ChatRole × List String => a.1 ≠ b.1) (runsSplit msgs) := by
  induction msgs with
  | nil => simp [runsSplit]
  | cons m rest ih =>
    unfold runsSplit
    cases h : runsSplit rest with
    | nil => simp
    | cons p more =>
      rw [h] at ih
      cases p with
      | mk r cs =>
        by_cases hr : m.role = r
        · cases more with
          | nil => simp [hr]
          | cons q qs =>
            rw [List.chain'_cons] at ih
            simp [hr, List.chain'_cons]
            exact ⟨ih.1, ih.2⟩
        · simp [hr]
          exact ih

theorem ensureAlternatingRoles_eq_drop (msgs : List ChatMsg) :
    ensureAlternatingRoles msgs = dropLeadingNonUser (mergeRuns msgs) := by
  unfold ensureAlternatingRoles dropLeadingNonUser
  cases mergeRuns msgs <;> rfl

theorem mergeRuns_chain (msgs : List ChatMsg) :
    List.Chain' (fun a b : ChatMsg => a.role ≠ b.role) (mergeRuns msgs) := by
  rw [mergeRuns_eq]
  unfold mergedOfRuns
  rw [List.chain'_map]
  exact runsSplit_chain msgs

/-- C9: the role-alternation transform returns a sequence whose roles strictly
alternate, which is empty or begins with a user turn, and which is exactly the
per-run merge of the input (each maximal same-role run collapsed to one
message joining its contents in order) with one leading non-user turn
dropped. -/
theorem ensureAlternatingRoles_spec (msgs : List ChatMsg) :
    List.Chain' (fun a b : ChatMsg => a.role ≠ b.role) (ensureAlternatingRoles msgs)
    ∧ (ensureAlternatingRoles msgs = [] ∨
        (ensureAlternatingRoles msgs).head?.map ChatMsg.role = some .user)
    ∧ ensureAlternatingRoles msgs = dropLeadingNonUser (mergedOfRuns msgs) := by
  have hchain := mergeRuns_chain msgs
  have hdrop := ensureAlternatingRoles_eq_drop msgs
  refine ⟨?_, ?_, by rw [hdrop, mergeRuns_eq]⟩
  · rw [hdrop]
    cases hm : mergeRuns msgs with
    | nil => simp [dropLeadingNonUser]
    | cons m rest =>
      rw [hm] at hchain
      simp only [dropLeadingNonUser]
      split
      · exact hchain.tail
      · exact hchain
  · rw [hdrop]
    cases hm : mergeRuns msgs with
    | nil => exact Or.inl rfl
    | cons m rest =>
      rw [hm] at hchain
      by_cases hu : m.role = .user
      · simp [dropLeadingNonUser, hu]
      · simp only [dropLeadingNonUser]
        rw [if_pos (by simpa using hu)]
        cases rest with
        | nil => exact Or.inl rfl
        | cons r1 rs =>
          rw [List.chain'_cons] at hchain
          have hr1 : r1.role = .user := by
            have := hchain.1
            cases h1 : m.role <;> cases h2 : r1.role <;> simp_all
          exact Or.inr (by simp [hr1])

/-! ## Claim C10 -/

theorem prevUnset_empty : PrevStateUnset emptyStore := by
  intro pc hpc
  cases hpc

theorem prevUnset_insert {s : Store} {phone : String} {c : CustomerContext}
    (hs : PrevStateUnset s) (hc : c.previousState = none) :
    PrevStateUnset (insertCtx s phone c) := by
  intro pc hpc
  rcases List.mem_cons.mp hpc with h | h
  · rw [h]; exact hc
  · exact hs pc (List.mem_of_mem_filter h)

theorem prevUnset_lookup {s : Store} {phone : String} {c : CustomerContext}
    (hs : PrevStateUnset s) (hl : lookupCtx s phone = some c) :
    c.previousState = none := by
  unfold lookupCtx at hl
  cases hf : s.find? (fun p => p.1 = phone) with
  | none => rw [hf] at hl; cases hl
  | some pc =>
    rw [hf] at hl
    have hmem := List.mem_of_find?_eq_some hf
    have : pc.2 = c := by simpa using hl
    rw [← this]
    exact hs pc hmem

theorem getOrCreate_prevUnset {s : Store} (phone : String) (now : Int)
    (hs : PrevStateUnset s) :
    (getOrCreateContext s phone now).1.previousState = none
    ∧ PrevStateUnset (getOrCreateContext s phone now).2 := by
  unfold getOrCreateContext
  cases hl : lookupCtx s phone with
  | none =>
    refine ⟨rfl, ?_⟩
    exact prevUnset_insert hs rfl
  | some c =>
    exact ⟨prevUnset_lookup hs hl, hs⟩

/-- The engine's mutation blocks never assign `previousState`, and every call
site with a successful reply generation passes the store's own object back to
`updateContext`, so the whole inbound turn preserves an unset
`previousState` across the store. -/
theorem handleIncomingMessage_preserves_prevUnset (s : Store)
    (phone message : String) (intent : IntentResult) (content : String) (now : Int)
    (hs : PrevStateUnset s) :
    PrevStateUnset (handleIncomingMessage s phone message intent (some content) now).2 := by
  cases hg : getOrCreateContext s phone now with
  | mk ctx0 s0 =>
    have hfacts := getOrCreate_prevUnset phone now hs (s := s)
    rw [hg] at hfacts
    obtain ⟨hctx0, hs0⟩ := hfacts
    have hctx1 : (updateContextFromIntent { ctx0 with lastMessageAt := some now } intent
        message).previousState = none := by
      rw [updateContextFromIntent_previousState]
      exact hctx0
    simp only [handleIncomingMessage, hg]
    split
    · rw [updateContext_aliased _ _ _ _ (lookupCtx_insertCtx_self _ _ _)]
      exact prevUnset_insert (prevUnset_insert hs0 hctx1) hctx1
    · cases hc : checkForAdminNotification
        (updateStateFromContext (updateContextFromIntent { ctx0 with lastMessageAt := some now }
          intent message))
        (updateContextFromIntent { ctx0 with lastMessageAt := some now } intent message).state
        intent message with
      | mk ctx3 notif =>
        have hctx3 : ctx3.previousState = none := by
          have hpres := checkForAdminNotification_previousState
            (updateStateFromContext (updateContextFromIntent
              { ctx0 with lastMessageAt := some now } intent message))
            (updateContextFromIntent { ctx0 with lastMessageAt := some now } intent
              message).state intent message
          rw [hc] at hpres
          rw [hpres, updateStateFromContext_previousState]
          exact hctx1
        rw [updateContext_aliased _ _ _ _ (lookupCtx_insertCtx_self _ _ _)]
        exact prevUnset_insert (prevUnset_insert hs0 hctx3) hctx3

theorem activateTrial_preserves_prevUnset (s : Store) (phone : String)
    (credentials : RawCredentials) (now : Int) (hs : PrevStateUnset s) :
    PrevStateUnset (activateTrial s phone credentials now).2 := by
  cases hg : getOrCreateContext s phone now with
  | mk ctx0 s0 =>
    have hfacts := getOrCreate_prevUnset phone now hs (s := s)
    rw [hg] at hfacts
    obtain ⟨hctx0, hs0⟩ := hfacts
    simp only [activateTrial, hg]
    rw [updateContext_aliased _ _ _ _ (lookupCtx_insertCtx_self _ _ _)]
    exact prevUnset_insert (prevUnset_insert hs0 hctx0) hctx0

theorem activateSubscription_preserves_prevUnset (s : Store) (phone : String)
    (plan : PlanType) (credentials : RawCredentials) (nowMs : Int) (nowCal : CalDate)
    (hs : PrevStateUnset s) :
    PrevStateUnset (activateSubscription s phone plan credentials nowMs nowCal).2 := by
  cases hg : getOrCreateContext s phone nowMs with
  | mk ctx0 s0 =>
    have hfacts := getOrCreate_prevUnset phone nowMs hs (s := s)
    rw [hg] at hfacts
    obtain ⟨hctx0, hs0⟩ := hfacts
    simp only [activateSubscription, hg]
    rw [updateContext_aliased _ _ _ _ (lookupCtx_insertCtx_self _ _ _)]
    exact prevUnset_insert (prevUnset_insert hs0 hctx0) hctx0

/-- C10 amended: across every store reachable through inbound turns whose
reply generation succeeds and through the admin activations, `previousState`
is never assigned — each such caller passes the store's own mutated object
back to `updateContext`, so the state-change comparison is reflexive. (The
claim fails as stated only on the generation-failure path, which passes a
stale copy; see the counterexample.) -/
theorem reachableOk_previousState_unset (s : Store) (h : ReachableOk s) :
    PrevStateUnset s := by
  induction h with
  | init => exact prevUnset_empty
  | inbound s phone message intent content now _ ih =>
    exact handleIncomingMessage_preserves_prevUnset s phone message intent content now ih
  | trial s phone credentials now _ ih =>
    exact activateTrial_preserves_prevUnset s phone credentials now ih
  | subscription s phone plan credentials nowMs nowCal _ ih =>
    exact activateSubscription_preserves_prevUnset s phone plan credentials nowMs nowCal ih

/-- C10 counterexample: one reachable turn assigns `previousState`. From the
empty store, an inbound "paid" message with payment intent whose reply
generation fails makes `checkForAdminNotification` mutate the stored object to
`payment_pending` while the response carries a stale pre-mutation copy; the
final `updateContext` then sees differing states and records
`previousState = payment_pending`. The claim's statement that the audit field
stays absent for every reachable context is false. -/
theorem previousState_assigned_counterexample :
    (lookupCtx genFailStore "353870000005").map CustomerContext.previousState =
      some (some .payment_pending)
    ∧ ¬ PrevStateUnset genFailStore := by
  constructor
  · decide
  · intro hall
    have := hall (("353870000005" : String),
      (match lookupCtx genFailStore "353870000005" with
        | some c => c
        | none => freshContext "353870000005" 0))
    revert this
    decide

/-- Witness for the C10 amended theorem: a concrete two-operation reachable
store, checked to have every `previousState` unset. -/
theorem reachableOk_previousState_unset_witness :
    ReachableOk (activateTrial
      (handleIncomingMessage emptyStore "353870000006" "hello" defaultIntentUnconfigured
        (some "hi there") 0).2 "353870000006" ⟨"user1", "pw1", "http://srv"⟩ 7).2
    ∧ PrevStateUnset (activateTrial
      (handleIncomingMessage emptyStore "353870000006" "hello" defaultIntentUnconfigured
        (some "hi there") 0).2 "353870000006" ⟨"user1", "pw1", "http://srv"⟩ 7).2 :=
  ⟨ReachableOk.trial _ _ _ _
      (ReachableOk.inbound _ _ _ _ _ _ ReachableOk.init),
   reachableOk_previousState_unset _
     (ReachableOk.trial _ _ _ _
       (ReachableOk.inbound _ _ _ _ _ _ ReachableOk.init))⟩

/-! ## Claim C1 -/

/-- C1 counterexample: a reachable context in `needs_human` (entered through
the escalation branch) is moved to `payment_pending` by processing one more
inbound message through the engine — the payment-confirmation branch of
`checkForAdminNotification` carries no `needs_human` guard. The claim that
every further inbound message leaves the state at `needs_human` is false. -/
theorem needsHuman_moved_by_payment_counterexample :
    (lookupCtx escalatedStore "353870000004").map CustomerContext.state =
      some .needs_human
    ∧ (lookupCtx escalatedThenPaidStore "353870000004").map CustomerContext.state =
      some .payment_pending
    ∧ ConversationState.payment_pending ≠ ConversationState.needs_human := by
  refine ⟨by decide, by decide, by decide⟩

/-- C1 amended: a context in `needs_human` keeps that state across any further
inbound message — whatever the intent (`pricing` and `technical_issue`
included) and whether reply generation succeeds or fails — unless the
payment-confirmation branch fires (payment intent together with a payment
keyword), which forces `payment_pending`; the admin activations remain able to
change the state. -/
theorem needsHuman_sticky (store : Store) (phone message : String)
    (intent : IntentResult) (genOutcome : Option String) (now : Int)
    (ctx : CustomerContext) (h : lookupCtx store phone = some ctx)
    (hstate : ctx.state = .needs_human)
    (hpay : ¬ (intent.intent = "payment" ∧ isPaymentConfirmation message)) :
    (lookupCtx (handleIncomingMessage store phone message intent genOutcome now).2
      phone).map CustomerContext.state = some .needs_human := by
  have hg := getOrCreateContext_of_lookup store phone now ctx h
  have hctx1state : (updateContextFromIntent { ctx with lastMessageAt := some now } intent
      message).state = .needs_human := by
    rw [updateContextFromIntent_state]
    exact hstate
  simp only [handleIncomingMessage, hg]
  split
  · rw [updateContext_aliased _ _ _ _ (lookupCtx_insertCtx_self _ _ _)]
    simp [lookupCtx_insertCtx_self]
  · rw [updateStateFromContext_needsHuman _ hctx1state]
    cases hc : checkForAdminNotification
      (updateContextFromIntent { ctx with lastMessageAt := some now } intent message)
      (updateContextFromIntent { ctx with lastMessageAt := some now } intent message).state
      intent message with
    | mk ctx3 notif =>
      have hctx3state : ctx3.state = .needs_human := by
        have hpres := checkForAdminNotification_state_of_no_payment
          (updateContextFromIntent { ctx with lastMessageAt := some now } intent message)
          (updateContextFromIntent { ctx with lastMessageAt := some now } intent
            message).state intent message hpay
        rw [hc] at hpres
        rw [hpres]
        exact hctx1state
      cases genOutcome with
      | some content =>
        rw [updateContext_aliased _ _ _ _ (lookupCtx_insertCtx_self _ _ _)]
        simp [lookupCtx_insertCtx_self, hctx3state]
      | none =>
        rw [updateContext_lookup]
        simp only [Option.map]
        rw [updateContext_state,
          getOrCreateContext_of_lookup _ _ _ _ (lookupCtx_insertCtx_self _ _ _)]
        simp [contextToUpdates, hctx1state]

/-- Witness for the C1 amended theorem at a concrete store and non-payment
message. -/
theorem needsHuman_sticky_witness :
    lookupCtx [("353870000007", needsHumanCtx)] "353870000007" = some needsHumanCtx
    ∧ needsHumanCtx.state = .needs_human
    ∧ ¬ (defaultIntentUnconfigured.intent = "payment" ∧ isPaymentConfirmation "hello")
    ∧ (lookupCtx (handleIncomingMessage [("353870000007", needsHumanCtx)] "353870000007"
        "hello" defaultIntentUnconfigured (some "ok") 5).2 "353870000007").map
        CustomerContext.state = some .needs_human :=
  ⟨by decide, rfl, by decide,
   needsHuman_sticky [("353870000007", needsHumanCtx)] "353870000007" "hello"
     defaultIntentUnconfigured (some "ok") 5 needsHumanCtx (by decide) rfl (by decide)⟩

end Chatbot
